import Mathlib

/-!
# dogent-go agent client: connection lifecycle and message dispatch

A shallow embedding of `client/client.go` (`AgentClient.Connect`,
`AgentClient.listen`, `AgentClient.handleMessage`).

The Go code is a sequence of calls into the outside world (dialler, websocket
transport, JSON decoder, command executor, logger, clock).  The embedding makes
every such call an `Event` of a trace, in program order, and takes the answers of
the outside world as inputs:

* the dialler and the transport are scripted: `DialResult` lists what successive
  `Dial` calls return, `ReadResult` what successive `ReadMessage` calls on one
  transport return, and `writeErr n` what the `n`-th `WriteJSON` on one transport
  returns;
* `url.Parse`, `json.Unmarshal` and `executor.RunCommand` are fields of `Env`;
  the executor runs on a host whose state `σ` is passed explicitly.

Where a script ends the trace ends: a `ReadMessage` or `Dial` with no scripted
answer has not returned yet (the log line written before such a `Dial` is in the
trace).
-/

namespace Dogent

/-- The `Config` struct. -/
structure Config where
  ServerURL : String
  Token : String
  ServerID : String
deriving DecidableEq, Repr

/-- A decoded JSON value as held in a Go `interface{}`.  The code only ever asks
whether a value is a string (`v.(string)`), so every other JSON value (number,
boolean, null, array, object) is kept as its raw text. -/
inductive Value where
  | str (s : String)
  | other (raw : String)
deriving DecidableEq, Repr

/-- An inbound decoded frame, `map[string]interface{}`.  A nil map (what
`json.Unmarshal` leaves for the JSON text `null`) answers every lookup like the
empty map and is the empty list here. -/
abbrev Msg := List (String × Value)

/-- An outbound frame, `map[string]string`. -/
abbrev Frame := List (String × String)

/-- The lines the code writes to the log, one constructor per `log.` call. -/
inductive LogEntry where
  | invalidURL (err : String)
  | connecting (url : String)
  | connectionFailed (err : String)
  | connected
  | authWriteFailed (err : String)
  | readError (err : String)
  | jsonParseError (err : String)
  | status (content : Option Value)
  | receivedCommand (cmd : String)
  | executionError (err : String)
  | unknownMessage (msg : Msg)
deriving DecidableEq, Repr

/-- One completed call into the outside world. -/
inductive Event where
  | log (entry : LogEntry)
  | exit (code : Nat)
  | dial (url : String) (err : Option String)
  | sleep (seconds : Nat)
  | writeJSON (frame : Frame) (err : Option String)
  | readMessage
  | runCommand (cmd : String)
  | close
deriving DecidableEq, Repr

/-- What `executor.RunCommand` returns: `(output string, err error)`. -/
structure Output where
  output : String
  err : Option String
deriving DecidableEq, Repr

/-- The collaborators of the client that are not part of `client.go`. -/
structure Env (σ : Type) where
  /-- The call `url.Parse(raw)` followed by `u.String()`. -/
  ParseURL : String → Except String String
  /-- The call `json.Unmarshal(message, &msg)` for a `map[string]interface{}`. -/
  Unmarshal : String → Except String Msg
  /-- The call `executor.RunCommand(cmd)` on a host in state `σ`. -/
  RunCommand : String → σ → Output × σ

/-- What one `ReadMessage` call returns. -/
inductive ReadResult where
  | message (data : String)
  | error (err : String)
deriving DecidableEq, Repr

/-- What one `Dial` call returns: an error, or a transport, given by what its
successive reads return and by the error (if any) of its `n`-th write. -/
inductive DialResult where
  | fail (err : String)
  | ok (reads : List ReadResult) (writeErr : Nat → Option String)

/-- The state after a piece of code ran on a transport: the events it produced,
the number of `WriteJSON` calls made on the transport so far, the host state. -/
structure Step (σ : Type) where
  events : List Event
  writes : Nat
  host : σ

/-- The result of `listen`: its events, whether it returned (`false`: it is still
blocked in `ReadMessage`), the write count and the host state. -/
structure Listened (σ : Type) where
  events : List Event
  returned : Bool
  writes : Nat
  host : σ

/-- The type assertion `v.(string)` on the result of a map lookup. -/
def asString : Option Value → Option String
  | some (Value.str s) => some s
  | _ => none

/-- The frame built for a command result. -/
def resultFrame (output : String) : Frame :=
  [("type", "command_result"), ("content", output)]

/-- The frame built for authentication. -/
def authFrame (cfg : Config) : Frame :=
  [("token", cfg.Token), ("server_id", cfg.ServerID)]

/-- The payload of a command result: `output`, overwritten by
`fmt.Sprintf("Error: %v", err)` when the executor returned an error. -/
def payload (r : Output) : String :=
  match r.err with
  | some err => "Error: " ++ err
  | none => r.output

/-- The method `AgentClient.handleMessage`. -/
def handleMessage {σ : Type} (env : Env σ) (writeErr : Nat → Option String)
    (msg : Msg) (nw : Nat) (s : σ) : Step σ :=
  match asString (msg.lookup "type") with
  | none => ⟨[], nw, s⟩
  | some msgType =>
    if msgType = "status" then
      ⟨[Event.log (LogEntry.status (msg.lookup "content"))], nw, s⟩
    else if msgType = "pong" then
      ⟨[], nw, s⟩
    else if msgType = "command" then
      let cmdContent := (asString (msg.lookup "content")).getD ""
      let r := env.RunCommand cmdContent s
      let errLog : List Event :=
        match r.1.err with
        | some err => [Event.log (LogEntry.executionError err)]
        | none => []
      ⟨[Event.log (LogEntry.receivedCommand cmdContent), Event.runCommand cmdContent]
          ++ errLog ++ [Event.writeJSON (resultFrame (payload r.1)) (writeErr nw)],
        nw + 1, r.2⟩
    else
      ⟨[Event.log (LogEntry.unknownMessage msg)], nw, s⟩

/-- Put events in front of what the rest of the loop does. -/
def Listened.after {σ : Type} (evs : List Event) (r : Listened σ) : Listened σ :=
  { r with events := evs ++ r.events }

/-- The method `AgentClient.listen`, on a transport whose successive reads return
`reads`.  The deferred `Close` runs when the function returns. -/
def listen {σ : Type} (env : Env σ) (writeErr : Nat → Option String) :
    List ReadResult → Nat → σ → Listened σ
  | [], nw, s => ⟨[], false, nw, s⟩
  | ReadResult.error err :: _, nw, s =>
    ⟨[Event.readMessage, Event.log (LogEntry.readError err), Event.close], true, nw, s⟩
  | ReadResult.message data :: rest, nw, s =>
    match env.Unmarshal data with
    | Except.error err =>
      (listen env writeErr rest nw s).after
        [Event.readMessage, Event.log (LogEntry.jsonParseError err)]
    | Except.ok msg =>
      let h := handleMessage env writeErr msg nw s
      (listen env writeErr rest h.writes h.host).after (Event.readMessage :: h.events)

/-- The `for` loop of `AgentClient.Connect`, with `u` the text of the parsed URL and
`dials` what the successive `Dial` calls return. -/
def connectLoop {σ : Type} (env : Env σ) (cfg : Config) (u : String) :
    List DialResult → σ → List Event
  | [], _ => [Event.log (LogEntry.connecting u)]
  | DialResult.fail err :: rest, s =>
    [Event.log (LogEntry.connecting u), Event.dial u (some err),
      Event.log (LogEntry.connectionFailed err), Event.sleep 5]
      ++ connectLoop env cfg u rest s
  | DialResult.ok reads writeErr :: rest, s =>
    [Event.log (LogEntry.connecting u), Event.dial u none, Event.log LogEntry.connected]
      ++ (match writeErr 0 with
          | some err =>
            [Event.writeJSON (authFrame cfg) (some err),
              Event.log (LogEntry.authWriteFailed err), Event.close]
              ++ connectLoop env cfg u rest s
          | none =>
            let l := listen env writeErr reads 1 s
            Event.writeJSON (authFrame cfg) none :: l.events
              ++ (if l.returned then connectLoop env cfg u rest l.host else []))

/-- The method `AgentClient.Connect`.  The interrupt channel it registers is never
read and has no effect. -/
def Connect {σ : Type} (env : Env σ) (cfg : Config) (dials : List DialResult) (s : σ) :
    List Event :=
  match env.ParseURL cfg.ServerURL with
  | Except.error err => [Event.log (LogEntry.invalidURL err), Event.exit 1]
  | Except.ok u => connectLoop env cfg u dials s

/-! ## Observations on a trace -/

/-- The frames passed to `WriteJSON`, in order. -/
def writtenFrames : List Event → List Frame
  | [] => []
  | Event.writeJSON f _ :: es => f :: writtenFrames es
  | _ :: es => writtenFrames es

/-- The commands passed to the executor, in order. -/
def execCalls : List Event → List String
  | [] => []
  | Event.runCommand c :: es => c :: execCalls es
  | _ :: es => execCalls es

/-- The log lines, in order. -/
def logged : List Event → List LogEntry
  | [] => []
  | Event.log e :: es => e :: logged es
  | _ :: es => logged es

/-- The durations of the sleeps, in order. -/
def sleeps : List Event → List Nat
  | [] => []
  | Event.sleep n :: es => n :: sleeps es
  | _ :: es => sleeps es

/-- The number of `Dial` calls. -/
def dialCount : List Event → Nat
  | [] => 0
  | Event.dial _ _ :: es => dialCount es + 1
  | _ :: es => dialCount es

/-- The number of `ReadMessage` calls. -/
def readCount : List Event → Nat
  | [] => 0
  | Event.readMessage :: es => readCount es + 1
  | _ :: es => readCount es

/-- The executor calls and the writes of a trace, everything else dropped. -/
def actions : List Event → List Event
  | [] => []
  | Event.runCommand c :: es => Event.runCommand c :: actions es
  | Event.writeJSON f e :: es => Event.writeJSON f e :: actions es
  | _ :: es => actions es

/-- The number of transports open after a trace that starts with `n` of them open:
a successful dial opens one, `Close` closes the current one. -/
def openAfter : Nat → List Event → Nat
  | n, [] => n
  | n, Event.dial _ none :: es => openAfter (n + 1) es
  | n, Event.close :: es => openAfter (n - 1) es
  | n, _ :: es => openAfter n es

/-! ## Reference behaviour, for comparison with the code -/

/-- The command texts of the frames that decode to a frame of type "command", in
arrival order (the content when it is a string, the empty string otherwise). -/
def commandsOf {σ : Type} (env : Env σ) : List String → List String
  | [] => []
  | data :: rest =>
    match env.Unmarshal data with
    | Except.ok msg =>
      if msg.lookup "type" = some (Value.str "command") then
        (asString (msg.lookup "content")).getD "" :: commandsOf env rest
      else commandsOf env rest
    | Except.error _ => commandsOf env rest

/-- Commands run one after the other, each result written before the next command
starts: the executor call and the write of every command, in order. -/
def serial {σ : Type} (env : Env σ) (writeErr : Nat → Option String) :
    List String → Nat → σ → List Event
  | [], _, _ => []
  | c :: cs, nw, s =>
    Event.runCommand c
      :: Event.writeJSON (resultFrame (payload (env.RunCommand c s).1)) (writeErr nw)
      :: serial env writeErr cs (nw + 1) (env.RunCommand c s).2

/-- The result frames of commands run one after the other. -/
def results {σ : Type} (env : Env σ) : List String → σ → List Frame
  | [], _ => []
  | c :: cs, s =>
    resultFrame (payload (env.RunCommand c s).1) :: results env cs (env.RunCommand c s).2

/-- The events of dial attempts that fail with the errors `errs`: each is announced,
made, logged as failed and followed by a sleep of 5 seconds. -/
def failedAttempts (u : String) : List String → List Event
  | [] => []
  | err :: errs =>
    [Event.log (LogEntry.connecting u), Event.dial u (some err),
      Event.log (LogEntry.connectionFailed err), Event.sleep 5] ++ failedAttempts u errs

/-! ## A sample environment for concrete runs -/

/-- A decoder given by a table: the listed texts decode to the listed frames, every
other text fails to decode. -/
def tableUnmarshal (table : List (String × Msg)) (data : String) : Except String Msg :=
  match table.lookup data with
  | some msg => Except.ok msg
  | none => Except.error "invalid character"

/-- A sample executor on a host that counts the commands it has run: `false` fails
with some output, every other command echoes its text. -/
def sampleRun (cmd : String) (n : Nat) : Output × Nat :=
  if cmd = "false" then (⟨"partial", some "exit status 1"⟩, n + 1)
  else (⟨"ran " ++ cmd, none⟩, n + 1)

/-- The sample frames: two commands, a failing command, a status, an unknown type,
a frame without type, a frame whose type is a number, a command without content. -/
def sampleTable : List (String × Msg) :=
  [("cmd-ls", [("type", Value.str "command"), ("content", Value.str "ls")]),
   ("cmd-pwd", [("type", Value.str "command"), ("content", Value.str "pwd")]),
   ("cmd-false", [("type", Value.str "command"), ("content", Value.str "false")]),
   ("status", [("type", Value.str "status"), ("content", Value.str "up")]),
   ("ping", [("type", Value.str "ping_unexpected")]),
   ("untyped", [("content", Value.str "ls")]),
   ("numtype", [("type", Value.other "7"), ("content", Value.str "ls")]),
   ("cmd-bare", [("type", Value.str "command"), ("content", Value.other "[1]")])]

/-- The sample environment. -/
def sampleEnv : Env Nat where
  ParseURL := fun raw => if raw = "" then Except.error "empty url" else Except.ok raw
  Unmarshal := tableUnmarshal sampleTable
  RunCommand := sampleRun

/-- A sample configuration. -/
def sampleConfig : Config := ⟨"ws://host/agent", "secret", "srv-1"⟩

/-- A transport on which every write succeeds. -/
def writesOk : Nat → Option String := fun _ => none

/-- A transport on which the write number `k` fails and every other one succeeds. -/
def writeFailsAt (k : Nat) : Nat → Option String :=
  fun n => if n = k then some "broken pipe" else none

/-! ## Basic facts -/

theorem writtenFrames_append (a b : List Event) :
    writtenFrames (a ++ b) = writtenFrames a ++ writtenFrames b := by
  induction a with
  | nil => rfl
  | cons e es ih => cases e <;> simp [writtenFrames, ih]

theorem execCalls_append (a b : List Event) :
    execCalls (a ++ b) = execCalls a ++ execCalls b := by
  induction a with
  | nil => rfl
  | cons e es ih => cases e <;> simp [execCalls, ih]

theorem actions_append (a b : List Event) :
    actions (a ++ b) = actions a ++ actions b := by
  induction a with
  | nil => rfl
  | cons e es ih => cases e <;> simp [actions, ih]

theorem sleeps_append (a b : List Event) :
    sleeps (a ++ b) = sleeps a ++ sleeps b := by
  induction a with
  | nil => rfl
  | cons e es ih => cases e <;> simp [sleeps, ih]

theorem dialCount_append (a b : List Event) :
    dialCount (a ++ b) = dialCount a + dialCount b := by
  induction a with
  | nil => simp [dialCount]
  | cons e es ih => cases e <;> simp [dialCount, ih]; omega

theorem readCount_append (a b : List Event) :
    readCount (a ++ b) = readCount a + readCount b := by
  induction a with
  | nil => simp [readCount]
  | cons e es ih => cases e <;> simp [readCount, ih]; omega

theorem openAfter_append (n : Nat) (a b : List Event) :
    openAfter n (a ++ b) = openAfter (openAfter n a) b := by
  induction a generalizing n with
  | nil => rfl
  | cons e es ih =>
    cases e with
    | dial u err => cases err <;> simp [openAfter, ih]
    | _ => simp [openAfter, ih]

/-- What `handleMessage` does on a command frame, whatever the executor returns. -/
theorem handleMessage_command {σ : Type} (env : Env σ) (writeErr : Nat → Option String)
    (msg : Msg) (nw : Nat) (s : σ)
    (htype : msg.lookup "type" = some (Value.str "command")) :
    handleMessage env writeErr msg nw s =
      ⟨[Event.log (LogEntry.receivedCommand ((asString (msg.lookup "content")).getD "")),
          Event.runCommand ((asString (msg.lookup "content")).getD "")]
          ++ (match (env.RunCommand ((asString (msg.lookup "content")).getD "") s).1.err with
              | some err => [Event.log (LogEntry.executionError err)]
              | none => [])
          ++ [Event.writeJSON
                (resultFrame (payload (env.RunCommand
                  ((asString (msg.lookup "content")).getD "") s).1)) (writeErr nw)],
        nw + 1, (env.RunCommand ((asString (msg.lookup "content")).getD "") s).2⟩ := by
  simp [handleMessage, htype, asString]

/-- The command text of a frame, as the claim words it: the content when it is a
string, the empty string otherwise. -/
theorem content_eq (msg : Msg) (c : String)
    (hc : msg.lookup "content" = some (Value.str c) ∨
      ((∀ x, msg.lookup "content" ≠ some (Value.str x)) ∧ c = "")) :
    (asString (msg.lookup "content")).getD "" = c := by
  rcases hc with h | ⟨h, rfl⟩
  · simp [h, asString]
  · cases hl : msg.lookup "content" with
    | none => simp [asString]
    | some v =>
      cases v with
      | str x => exact absurd hl (h x)
      | other raw => simp [asString]

/-- One turn of the loop of `listen` on a frame that decodes. -/
theorem listen_decoded {σ : Type} (env : Env σ) (writeErr : Nat → Option String)
    (data : String) (msg : Msg) (rest : List ReadResult) (nw : Nat) (s : σ)
    (hdec : env.Unmarshal data = Except.ok msg) :
    listen env writeErr (ReadResult.message data :: rest) nw s =
      (listen env writeErr rest (handleMessage env writeErr msg nw s).writes
        (handleMessage env writeErr msg nw s).host).after
        (Event.readMessage :: (handleMessage env writeErr msg nw s).events) := by
  simp [listen, hdec]

/-- What `handleMessage` does on a frame whose type is a string other than
"command". -/
theorem handleMessage_not_command {σ : Type} (env : Env σ)
    (writeErr : Nat → Option String) (msg : Msg) (nw : Nat) (s : σ) (t : String)
    (htype : msg.lookup "type" = some (Value.str t)) (ht : t ≠ "command") :
    handleMessage env writeErr msg nw s =
      ⟨(if t = "status" then [Event.log (LogEntry.status (msg.lookup "content"))]
         else if t = "pong" then []
         else [Event.log (LogEntry.unknownMessage msg)]), nw, s⟩ := by
  simp only [handleMessage, htype, asString, if_neg ht]
  split_ifs <;> rfl

/-- What `handleMessage` does on a frame whose type is not a string. -/
theorem handleMessage_untyped {σ : Type} (env : Env σ)
    (writeErr : Nat → Option String) (msg : Msg) (nw : Nat) (s : σ)
    (htype : ∀ t, msg.lookup "type" ≠ some (Value.str t)) :
    handleMessage env writeErr msg nw s = ⟨[], nw, s⟩ := by
  have h : asString (msg.lookup "type") = none := by
    cases hl : msg.lookup "type" with
    | none => rfl
    | some v =>
      cases v with
      | str x => exact absurd hl (htype x)
      | other raw => rfl
  simp [handleMessage, h]

/-- A frame that is not a command frame leaves the transport and the host alone. -/
theorem handleMessage_quiet {σ : Type} (env : Env σ)
    (writeErr : Nat → Option String) (msg : Msg) (nw : Nat) (s : σ)
    (htype : msg.lookup "type" ≠ some (Value.str "command")) :
    actions (handleMessage env writeErr msg nw s).events = [] ∧
      (handleMessage env writeErr msg nw s).writes = nw ∧
      (handleMessage env writeErr msg nw s).host = s := by
  by_cases h : ∃ t, msg.lookup "type" = some (Value.str t)
  · obtain ⟨t, h⟩ := h
    have ht : t ≠ "command" := fun e => htype (e ▸ h)
    rw [handleMessage_not_command env writeErr msg nw s t h ht]
    refine ⟨?_, rfl, rfl⟩
    dsimp only
    split_ifs <;> rfl
  · rw [handleMessage_untyped env writeErr msg nw s (fun t e => h ⟨t, e⟩)]
    exact ⟨rfl, rfl, rfl⟩

/-- No frame makes `handleMessage` dial or close. -/
theorem openAfter_handleMessage {σ : Type} (env : Env σ)
    (writeErr : Nat → Option String) (msg : Msg) (nw : Nat) (s : σ) (n : Nat) :
    openAfter n (handleMessage env writeErr msg nw s).events = n := by
  by_cases hc : msg.lookup "type" = some (Value.str "command")
  · rw [handleMessage_command env writeErr msg nw s hc]
    dsimp only
    cases (env.RunCommand ((asString (msg.lookup "content")).getD "") s).1.err <;> rfl
  · by_cases h : ∃ t, msg.lookup "type" = some (Value.str t)
    · obtain ⟨t, h⟩ := h
      have ht : t ≠ "command" := fun e => hc (e ▸ h)
      rw [handleMessage_not_command env writeErr msg nw s t h ht]
      dsimp only
      split_ifs <;> rfl
    · rw [handleMessage_untyped env writeErr msg nw s (fun t e => h ⟨t, e⟩)]
      rfl

/-! ## Dispatch of one frame -/

/-- C1: on a decoded frame of type "command" with command text `c` (the content when
it is a string, the empty string when it is absent or not a string) and an executor
that returns output `o` without error on `c`, `handleMessage` logs the command, calls
the executor once, with `c`, and makes one write, of the frame
`{"type":"command_result","content":o}`; nothing else happens. -/
theorem handleMessage_command_roundtrip {σ : Type} (env : Env σ)
    (writeErr : Nat → Option String) (msg : Msg) (nw : Nat) (s s' : σ) (c o : String)
    (htype : msg.lookup "type" = some (Value.str "command"))
    (hc : msg.lookup "content" = some (Value.str c) ∨
      ((∀ x, msg.lookup "content" ≠ some (Value.str x)) ∧ c = ""))
    (hrun : env.RunCommand c s = (⟨o, none⟩, s')) :
    (handleMessage env writeErr msg nw s).events =
        [Event.log (LogEntry.receivedCommand c), Event.runCommand c,
          Event.writeJSON [("type", "command_result"), ("content", o)] (writeErr nw)] ∧
      execCalls (handleMessage env writeErr msg nw s).events = [c] ∧
      writtenFrames (handleMessage env writeErr msg nw s).events =
        [[("type", "command_result"), ("content", o)]] ∧
      (handleMessage env writeErr msg nw s).writes = nw + 1 ∧
      (handleMessage env writeErr msg nw s).host = s' := by
  have hcc := content_eq msg c hc
  rw [handleMessage_command env writeErr msg nw s htype, hcc, hrun]
  simp [payload, resultFrame, execCalls, writtenFrames]

/-- C2: on a decoded frame of type "command" whose execution returns an error `e`
(with whatever output), `handleMessage` makes one write, of the frame
`{"type":"command_result","content":"Error: " ++ e}`, whose content is not empty;
it returns normally, and `listen` goes on with the reads that follow. -/
theorem handleMessage_command_failure {σ : Type} (env : Env σ)
    (writeErr : Nat → Option String) (msg : Msg) (nw : Nat) (s s' : σ) (c out e : String)
    (htype : msg.lookup "type" = some (Value.str "command"))
    (hc : msg.lookup "content" = some (Value.str c) ∨
      ((∀ x, msg.lookup "content" ≠ some (Value.str x)) ∧ c = ""))
    (hrun : env.RunCommand c s = (⟨out, some e⟩, s')) :
    (handleMessage env writeErr msg nw s).events =
        [Event.log (LogEntry.receivedCommand c), Event.runCommand c,
          Event.log (LogEntry.executionError e),
          Event.writeJSON [("type", "command_result"), ("content", "Error: " ++ e)]
            (writeErr nw)] ∧
      writtenFrames (handleMessage env writeErr msg nw s).events =
        [[("type", "command_result"), ("content", "Error: " ++ e)]] ∧
      "Error: " ++ e ≠ "" ∧
      ∀ (data : String) (rest : List ReadResult), env.Unmarshal data = Except.ok msg →
        listen env writeErr (ReadResult.message data :: rest) nw s =
          (listen env writeErr rest (nw + 1) s').after
            [Event.readMessage, Event.log (LogEntry.receivedCommand c), Event.runCommand c,
              Event.log (LogEntry.executionError e),
              Event.writeJSON [("type", "command_result"), ("content", "Error: " ++ e)]
                (writeErr nw)] := by
  have hcc := content_eq msg c hc
  have hm := handleMessage_command env writeErr msg nw s htype
  rw [hcc, hrun] at hm
  simp only [payload, resultFrame] at hm
  refine ⟨by rw [hm]; rfl, by rw [hm]; rfl, ?_, ?_⟩
  · intro h
    have hlen := congrArg String.length h
    rw [String.length_append] at hlen
    have h7 : "Error: ".length = 7 := by decide
    have h0 : "".length = 0 := by decide
    omega
  · intro data rest hdec
    rw [listen_decoded env writeErr data msg rest nw s hdec, hm]
    rfl

/-- C8: on a decoded frame whose type is a string other than "command",
`handleMessage` makes no write and no executor call and leaves the write count and
the host as they were: it logs the content for "status", does nothing for "pong",
and logs the frame as unknown for every other string; `listen` then goes on with the
reads that follow. -/
theorem handleMessage_other_type {σ : Type} (env : Env σ)
    (writeErr : Nat → Option String) (msg : Msg) (nw : Nat) (s : σ) (t : String)
    (htype : msg.lookup "type" = some (Value.str t)) (ht : t ≠ "command") :
    (handleMessage env writeErr msg nw s).events =
        (if t = "status" then [Event.log (LogEntry.status (msg.lookup "content"))]
         else if t = "pong" then []
         else [Event.log (LogEntry.unknownMessage msg)]) ∧
      writtenFrames (handleMessage env writeErr msg nw s).events = [] ∧
      execCalls (handleMessage env writeErr msg nw s).events = [] ∧
      (handleMessage env writeErr msg nw s).writes = nw ∧
      (handleMessage env writeErr msg nw s).host = s ∧
      ∀ (data : String) (rest : List ReadResult), env.Unmarshal data = Except.ok msg →
        listen env writeErr (ReadResult.message data :: rest) nw s =
          (listen env writeErr rest nw s).after
            (Event.readMessage :: (handleMessage env writeErr msg nw s).events) := by
  have hm := handleMessage_not_command env writeErr msg nw s t htype ht
  refine ⟨by rw [hm], ?_, ?_, by rw [hm], by rw [hm], ?_⟩
  · rw [hm]; dsimp only; split_ifs <;> rfl
  · rw [hm]; dsimp only; split_ifs <;> rfl
  · intro data rest hdec
    rw [listen_decoded env writeErr data msg rest nw s hdec]
    rw [hm]

/-- C9, as amended: on a decoded frame whose type is missing or is not a string (a
frame decoded from JSON `null` has no field at all), `handleMessage` returns at
once: no log line, no write, no executor call. -/
theorem handleMessage_no_type {σ : Type} (env : Env σ)
    (writeErr : Nat → Option String) (msg : Msg) (nw : Nat) (s : σ)
    (htype : ∀ t, msg.lookup "type" ≠ some (Value.str t)) :
    handleMessage env writeErr msg nw s = ⟨[], nw, s⟩ :=
  handleMessage_untyped env writeErr msg nw s htype

/-- C9, as stated, fails: the frame `{"content":"ls"}` has no type field and
nothing is logged for it, so it is not logged as unrecognized, while the frame with
the unrecognized type "ping_unexpected" is logged as unknown. -/
theorem untyped_frame_not_logged :
    List.lookup "type" [("content", Value.str "ls")] = none ∧
      logged (handleMessage sampleEnv writesOk [("content", Value.str "ls")] 1 0).events
        = [] ∧
      LogEntry.unknownMessage [("content", Value.str "ls")] ∉
        logged (handleMessage sampleEnv writesOk [("content", Value.str "ls")] 1 0).events ∧
      logged (handleMessage sampleEnv writesOk
          [("type", Value.str "ping_unexpected"), ("content", Value.str "ls")] 1 0).events
        = [LogEntry.unknownMessage
            [("type", Value.str "ping_unexpected"), ("content", Value.str "ls")]] := by
  refine ⟨by decide, by decide, by decide, by decide⟩

/-! ## The serve loop -/

theorem after_events {σ : Type} (evs : List Event) (r : Listened σ) :
    (r.after evs).events = evs ++ r.events := rfl

theorem after_returned {σ : Type} (evs : List Event) (r : Listened σ) :
    (r.after evs).returned = r.returned := rfl

theorem after_writes {σ : Type} (evs : List Event) (r : Listened σ) :
    (r.after evs).writes = r.writes := rfl

theorem after_host {σ : Type} (evs : List Event) (r : Listened σ) :
    (r.after evs).host = r.host := rfl

/-- One turn of the loop of `listen` on a frame that does not decode. -/
theorem listen_undecoded {σ : Type} (env : Env σ) (writeErr : Nat → Option String)
    (data err : String) (rest : List ReadResult) (nw : Nat) (s : σ)
    (hdec : env.Unmarshal data = Except.error err) :
    listen env writeErr (ReadResult.message data :: rest) nw s =
      (listen env writeErr rest nw s).after
        [Event.readMessage, Event.log (LogEntry.jsonParseError err)] := by
  simp [listen, hdec]

/-- A frame that does not decode changes nothing but the read and the log line:
whatever comes before and after it, the writes, the executor calls, the outcome of
the loop, the write count and the host are those of the run without it. -/
theorem listen_skip {σ : Type} (env : Env σ) (writeErr : Nat → Option String)
    (data err : String) (hdec : env.Unmarshal data = Except.error err)
    (rest : List ReadResult) :
    ∀ (before : List ReadResult) (nw : Nat) (s : σ),
      actions (listen env writeErr (before ++ ReadResult.message data :: rest) nw s).events
          = actions (listen env writeErr (before ++ rest) nw s).events ∧
        (listen env writeErr (before ++ ReadResult.message data :: rest) nw s).returned
          = (listen env writeErr (before ++ rest) nw s).returned ∧
        (listen env writeErr (before ++ ReadResult.message data :: rest) nw s).writes
          = (listen env writeErr (before ++ rest) nw s).writes ∧
        (listen env writeErr (before ++ ReadResult.message data :: rest) nw s).host
          = (listen env writeErr (before ++ rest) nw s).host := by
  intro before
  induction before with
  | nil =>
    intro nw s
    simp only [List.nil_append]
    rw [listen_undecoded env writeErr data err rest nw s hdec]
    simp [after_events, after_returned, after_writes, after_host, actions]
  | cons r before ih =>
    intro nw s
    cases r with
    | error e => simp [listen]
    | message d =>
      simp only [List.cons_append]
      cases hd : env.Unmarshal d with
      | error e' =>
        rw [listen_undecoded env writeErr d e' _ nw s hd,
          listen_undecoded env writeErr d e' _ nw s hd]
        simp only [after_events, after_returned, after_writes, after_host, actions_append]
        obtain ⟨h1, h2, h3, h4⟩ := ih nw s
        exact ⟨by rw [h1], h2, h3, h4⟩
      | ok msg =>
        rw [listen_decoded env writeErr d msg _ nw s hd,
          listen_decoded env writeErr d msg _ nw s hd]
        simp only [after_events, after_returned, after_writes, after_host]
        obtain ⟨h1, h2, h3, h4⟩ := ih (handleMessage env writeErr msg nw s).writes
          (handleMessage env writeErr msg nw s).host
        refine ⟨?_, h2, h3, h4⟩
        simp only [List.cons_append, actions, List.append_eq, actions_append, h1]

theorem writtenFrames_actions (es : List Event) :
    writtenFrames (actions es) = writtenFrames es := by
  induction es with
  | nil => rfl
  | cons e es ih => cases e <;> simp [actions, writtenFrames, ih]

theorem execCalls_actions (es : List Event) :
    execCalls (actions es) = execCalls es := by
  induction es with
  | nil => rfl
  | cons e es ih => cases e <;> simp [actions, execCalls, ih]

/-- The executor calls and writes of `handleMessage` on a command frame. -/
theorem handleMessage_command_actions {σ : Type} (env : Env σ)
    (writeErr : Nat → Option String) (msg : Msg) (nw : Nat) (s : σ)
    (htype : msg.lookup "type" = some (Value.str "command")) :
    actions (handleMessage env writeErr msg nw s).events =
        [Event.runCommand ((asString (msg.lookup "content")).getD ""),
          Event.writeJSON (resultFrame (payload (env.RunCommand
            ((asString (msg.lookup "content")).getD "") s).1)) (writeErr nw)] ∧
      (handleMessage env writeErr msg nw s).writes = nw + 1 ∧
      (handleMessage env writeErr msg nw s).host =
        (env.RunCommand ((asString (msg.lookup "content")).getD "") s).2 := by
  rw [handleMessage_command env writeErr msg nw s htype]
  refine ⟨?_, rfl, rfl⟩
  dsimp only
  cases (env.RunCommand ((asString (msg.lookup "content")).getD "") s).1.err <;> rfl

/-- On reads that all deliver a frame, the executor calls and writes of `listen` are
those of the command frames run one after the other, and `listen` does not return. -/
theorem listen_actions {σ : Type} (env : Env σ) (writeErr : Nat → Option String) :
    ∀ (frames : List String) (nw : Nat) (s : σ),
      actions (listen env writeErr (frames.map ReadResult.message) nw s).events =
          serial env writeErr (commandsOf env frames) nw s ∧
        (listen env writeErr (frames.map ReadResult.message) nw s).returned = false := by
  intro frames
  induction frames with
  | nil => intro nw s; exact ⟨rfl, rfl⟩
  | cons d frames ih =>
    intro nw s
    simp only [List.map_cons]
    cases hd : env.Unmarshal d with
    | error e =>
      rw [listen_undecoded env writeErr d e _ nw s hd]
      simp only [after_events, after_returned, commandsOf, hd]
      exact ⟨by simpa [actions] using (ih nw s).1, (ih nw s).2⟩
    | ok msg =>
      rw [listen_decoded env writeErr d msg _ nw s hd]
      simp only [after_events, after_returned, commandsOf, hd]
      by_cases hc : msg.lookup "type" = some (Value.str "command")
      · obtain ⟨h1, h2, h3⟩ := handleMessage_command_actions env writeErr msg nw s hc
        rw [h2, h3, if_pos hc]
        refine ⟨?_, (ih _ _).2⟩
        simp only [List.cons_append, actions, List.append_eq, actions_append, h1,
          (ih _ _).1, serial]
        rfl
      · obtain ⟨h1, h2, h3⟩ := handleMessage_quiet env writeErr msg nw s hc
        rw [h2, h3, if_neg hc]
        refine ⟨?_, (ih _ _).2⟩
        simp only [List.cons_append, actions, List.append_eq, actions_append, h1,
          (ih _ _).1, List.nil_append]

theorem writtenFrames_serial {σ : Type} (env : Env σ) (writeErr : Nat → Option String) :
    ∀ (cs : List String) (nw : Nat) (s : σ),
      writtenFrames (serial env writeErr cs nw s) = results env cs s := by
  intro cs
  induction cs with
  | nil => intro nw s; rfl
  | cons c cs ih => intro nw s; simp [serial, writtenFrames, results, ih]

theorem execCalls_serial {σ : Type} (env : Env σ) (writeErr : Nat → Option String) :
    ∀ (cs : List String) (nw : Nat) (s : σ),
      execCalls (serial env writeErr cs nw s) = cs := by
  intro cs
  induction cs with
  | nil => intro nw s; rfl
  | cons c cs ih => intro nw s; simp [serial, execCalls, ih]

theorem results_length {σ : Type} (env : Env σ) :
    ∀ (cs : List String) (s : σ), (results env cs s).length = cs.length := by
  intro cs
  induction cs with
  | nil => intro s; rfl
  | cons c cs ih => intro s; simp [results, ih]

theorem results_type {σ : Type} (env : Env σ) :
    ∀ (cs : List String) (s : σ) (f : Frame), f ∈ results env cs s →
      f.lookup "type" = some "command_result" ∧ f.length = 2 := by
  intro cs
  induction cs with
  | nil => intro s f hf; simp [results] at hf
  | cons c cs ih =>
    intro s f hf
    simp only [results, List.mem_cons] at hf
    rcases hf with rfl | hf
    · simp [resultFrame, List.lookup]
    · exact ih _ f hf

/-- A read failure ends `listen`: the reads after it play no part. -/
theorem listen_until_error {σ : Type} (env : Env σ) (writeErr : Nat → Option String)
    (err : String) (post : List ReadResult) :
    ∀ (frames : List String) (nw : Nat) (s : σ),
      listen env writeErr (frames.map ReadResult.message ++ ReadResult.error err :: post) nw s
        = ⟨(listen env writeErr (frames.map ReadResult.message) nw s).events
            ++ [Event.readMessage, Event.log (LogEntry.readError err), Event.close],
          true,
          (listen env writeErr (frames.map ReadResult.message) nw s).writes,
          (listen env writeErr (frames.map ReadResult.message) nw s).host⟩ := by
  intro frames
  induction frames with
  | nil => intro nw s; rfl
  | cons d frames ih =>
    intro nw s
    simp only [List.map_cons, List.cons_append]
    cases hd : env.Unmarshal d with
    | error e =>
      rw [listen_undecoded env writeErr d e _ nw s hd,
        listen_undecoded env writeErr d e _ nw s hd, ih nw s]
      rfl
    | ok msg =>
      rw [listen_decoded env writeErr d msg _ nw s hd,
        listen_decoded env writeErr d msg _ nw s hd, ih _ _]
      simp [Listened.after]

/-- No frame makes `listen` dial or close while its reads deliver frames. -/
theorem openAfter_listen {σ : Type} (env : Env σ) (writeErr : Nat → Option String) :
    ∀ (frames : List String) (nw : Nat) (s : σ) (n : Nat),
      openAfter n (listen env writeErr (frames.map ReadResult.message) nw s).events = n := by
  intro frames
  induction frames with
  | nil => intro nw s n; rfl
  | cons d frames ih =>
    intro nw s n
    simp only [List.map_cons]
    cases hd : env.Unmarshal d with
    | error e =>
      rw [listen_undecoded env writeErr d e _ nw s hd]
      simp only [after_events, List.cons_append, List.nil_append, openAfter]
      exact ih nw s n
    | ok msg =>
      rw [listen_decoded env writeErr d msg _ nw s hd]
      simp only [after_events, List.cons_append, openAfter, List.append_eq]
      rw [openAfter_append, openAfter_handleMessage, ih]

/-- C3, evaluated: two command frames arrive and the write of the first result fails
with "broken pipe".  The code drops the error of that write: nothing is logged about
it, `listen` does not return and the transport is not closed; the second frame is
read, its command is run and its result is written. -/
theorem listen_ignores_write_failure :
    writeFailsAt 1 1 = some "broken pipe" ∧
      (listen sampleEnv (writeFailsAt 1)
          [ReadResult.message "cmd-ls", ReadResult.message "cmd-pwd"] 1 0).events =
        [Event.readMessage, Event.log (LogEntry.receivedCommand "ls"),
          Event.runCommand "ls",
          Event.writeJSON [("type", "command_result"), ("content", "ran ls")]
            (some "broken pipe"),
          Event.readMessage, Event.log (LogEntry.receivedCommand "pwd"),
          Event.runCommand "pwd",
          Event.writeJSON [("type", "command_result"), ("content", "ran pwd")] none] ∧
      (listen sampleEnv (writeFailsAt 1)
          [ReadResult.message "cmd-ls", ReadResult.message "cmd-pwd"] 1 0).returned
        = false := by
  refine ⟨by decide, ?_, ?_⟩
  · decide
  · decide

/-- C4: a frame that fails to decode makes `listen` log the parse error and go on
with the next read: it makes no write and no executor call, does not close the
transport and does not return.  Wherever the frame stands in the reads, the writes,
the executor calls and the outcome of `listen` are those of the reads without it. -/
theorem listen_malformed_frame {σ : Type} (env : Env σ) (writeErr : Nat → Option String)
    (data err : String) (before rest : List ReadResult) (nw : Nat) (s : σ)
    (hdec : env.Unmarshal data = Except.error err) :
    listen env writeErr (ReadResult.message data :: rest) nw s =
        (listen env writeErr rest nw s).after
          [Event.readMessage, Event.log (LogEntry.jsonParseError err)] ∧
      writtenFrames
          (listen env writeErr (before ++ ReadResult.message data :: rest) nw s).events
        = writtenFrames (listen env writeErr (before ++ rest) nw s).events ∧
      execCalls
          (listen env writeErr (before ++ ReadResult.message data :: rest) nw s).events
        = execCalls (listen env writeErr (before ++ rest) nw s).events ∧
      actions
          (listen env writeErr (before ++ ReadResult.message data :: rest) nw s).events
        = actions (listen env writeErr (before ++ rest) nw s).events ∧
      (listen env writeErr (before ++ ReadResult.message data :: rest) nw s).returned
        = (listen env writeErr (before ++ rest) nw s).returned ∧
      (listen env writeErr (before ++ ReadResult.message data :: rest) nw s).host
        = (listen env writeErr (before ++ rest) nw s).host := by
  obtain ⟨h1, h2, _, h4⟩ := listen_skip env writeErr data err hdec rest before nw s
  refine ⟨listen_undecoded env writeErr data err rest nw s hdec, ?_, ?_, h1, h2, h4⟩
  · rw [← writtenFrames_actions, h1, writtenFrames_actions]
  · rw [← execCalls_actions, h1, execCalls_actions]

/-- C7: when every read delivers a frame, the frames written by `listen` are the
result frames of the decoded command frames, one per command and in arrival order,
each of type "command_result"; the executor calls are those commands in that order;
and calls and writes alternate: call 1, write 1, call 2, write 2, and so on. -/
theorem listen_single_flight {σ : Type} (env : Env σ) (writeErr : Nat → Option String)
    (frames : List String) (nw : Nat) (s : σ) :
    writtenFrames (listen env writeErr (frames.map ReadResult.message) nw s).events
        = results env (commandsOf env frames) s ∧
      (writtenFrames (listen env writeErr (frames.map ReadResult.message) nw s).events).length
        = (commandsOf env frames).length ∧
      (∀ f ∈ writtenFrames (listen env writeErr (frames.map ReadResult.message) nw s).events,
        f.lookup "type" = some "command_result" ∧ f.length = 2) ∧
      execCalls (listen env writeErr (frames.map ReadResult.message) nw s).events
        = commandsOf env frames ∧
      actions (listen env writeErr (frames.map ReadResult.message) nw s).events
        = serial env writeErr (commandsOf env frames) nw s := by
  have ha := (listen_actions env writeErr frames nw s).1
  have hw : writtenFrames (listen env writeErr (frames.map ReadResult.message) nw s).events
      = results env (commandsOf env frames) s := by
    rw [← writtenFrames_actions, ha, writtenFrames_serial]
  refine ⟨hw, ?_, ?_, ?_, ha⟩
  · rw [hw, results_length]
  · rw [hw]; exact results_type env _ s
  · rw [← execCalls_actions, ha, execCalls_serial]

/-- C10: when a read fails, `listen` logs it, closes the transport and returns: its
events end with that read, the log line and the close, and the reads scripted after
the failure play no part.  In `Connect` the session, from its dial to that close,
leaves no transport open, and the loop goes on with the next dial. -/
theorem listen_read_failure {σ : Type} (env : Env σ) (writeErr : Nat → Option String)
    (cfg : Config) (u : String) (frames : List String) (err : String)
    (post : List ReadResult) (rest : List DialResult) (nw : Nat) (s : σ) :
    listen env writeErr (frames.map ReadResult.message ++ ReadResult.error err :: post) nw s
        = ⟨(listen env writeErr (frames.map ReadResult.message) nw s).events
            ++ [Event.readMessage, Event.log (LogEntry.readError err), Event.close],
          true,
          (listen env writeErr (frames.map ReadResult.message) nw s).writes,
          (listen env writeErr (frames.map ReadResult.message) nw s).host⟩ ∧
      (writeErr 0 = none →
        connectLoop env cfg u
            (DialResult.ok (frames.map ReadResult.message ++ ReadResult.error err :: post)
              writeErr :: rest) s
          = ([Event.log (LogEntry.connecting u), Event.dial u none,
                Event.log LogEntry.connected, Event.writeJSON (authFrame cfg) none]
              ++ (listen env writeErr (frames.map ReadResult.message) 1 s).events
              ++ [Event.readMessage, Event.log (LogEntry.readError err), Event.close])
            ++ connectLoop env cfg u rest
                (listen env writeErr (frames.map ReadResult.message) 1 s).host) ∧
      openAfter 0
          ([Event.log (LogEntry.connecting u), Event.dial u none,
              Event.log LogEntry.connected, Event.writeJSON (authFrame cfg) none]
            ++ (listen env writeErr (frames.map ReadResult.message) 1 s).events
            ++ [Event.readMessage, Event.log (LogEntry.readError err), Event.close])
        = 0 := by
  refine ⟨listen_until_error env writeErr err post frames nw s, ?_, ?_⟩
  · intro h0
    simp only [connectLoop, h0, listen_until_error env writeErr err post frames 1 s]
    simp
  · rw [openAfter_append, openAfter_append]
    simp only [openAfter]
    rw [openAfter_listen]

/-! ## The connect loop -/

/-- The loop of `Connect` over dials that fail. -/
theorem connectLoop_failures {σ : Type} (env : Env σ) (cfg : Config) (u : String)
    (dials : List DialResult) (s : σ) :
    ∀ errs : List String,
      connectLoop env cfg u (errs.map DialResult.fail ++ dials) s
        = failedAttempts u errs ++ connectLoop env cfg u dials s := by
  intro errs
  induction errs with
  | nil => rfl
  | cons e errs ih => simp [connectLoop, failedAttempts, ih]

theorem dialCount_failedAttempts (u : String) (errs : List String) :
    dialCount (failedAttempts u errs) = errs.length := by
  induction errs with
  | nil => rfl
  | cons e errs ih => simp [failedAttempts, dialCount, ih]

theorem sleeps_failedAttempts (u : String) (errs : List String) :
    sleeps (failedAttempts u errs) = List.replicate errs.length 5 := by
  induction errs with
  | nil => rfl
  | cons e errs ih => simp [failedAttempts, sleeps, ih, List.replicate_succ]

theorem readCount_failedAttempts (u : String) (errs : List String) :
    readCount (failedAttempts u errs) = 0 := by
  induction errs with
  | nil => rfl
  | cons e errs ih => simp [failedAttempts, readCount, ih]

theorem writtenFrames_failedAttempts (u : String) (errs : List String) :
    writtenFrames (failedAttempts u errs) = [] := by
  induction errs with
  | nil => rfl
  | cons e errs ih => simp [failedAttempts, writtenFrames, ih]

/-- Every frame `handleMessage` writes is a command result. -/
theorem handleMessage_writes {σ : Type} (env : Env σ) (writeErr : Nat → Option String)
    (msg : Msg) (nw : Nat) (s : σ) (f : Frame)
    (hf : f ∈ writtenFrames (handleMessage env writeErr msg nw s).events) :
    f.lookup "type" = some "command_result" := by
  rw [← writtenFrames_actions] at hf
  by_cases hc : msg.lookup "type" = some (Value.str "command")
  · rw [(handleMessage_command_actions env writeErr msg nw s hc).1] at hf
    simp only [writtenFrames, List.mem_singleton] at hf
    subst hf
    rfl
  · rw [(handleMessage_quiet env writeErr msg nw s hc).1] at hf
    simp [writtenFrames] at hf

/-- Every frame `listen` writes is a command result, whatever the reads. -/
theorem listen_writes {σ : Type} (env : Env σ) (writeErr : Nat → Option String) :
    ∀ (reads : List ReadResult) (nw : Nat) (s : σ) (f : Frame),
      f ∈ writtenFrames (listen env writeErr reads nw s).events →
        f.lookup "type" = some "command_result" := by
  intro reads
  induction reads with
  | nil => intro nw s f hf; simp [listen, writtenFrames] at hf
  | cons r reads ih =>
    intro nw s f hf
    cases r with
    | error e => simp [listen, writtenFrames] at hf
    | message d =>
      cases hd : env.Unmarshal d with
      | error e =>
        rw [listen_undecoded env writeErr d e _ nw s hd] at hf
        simp only [after_events, List.cons_append, List.nil_append, writtenFrames] at hf
        exact ih nw s f hf
      | ok msg =>
        rw [listen_decoded env writeErr d msg _ nw s hd] at hf
        simp only [after_events, List.cons_append, writtenFrames, List.append_eq,
          writtenFrames_append, List.mem_append] at hf
        rcases hf with hf | hf
        · exact handleMessage_writes env writeErr msg nw s f hf
        · exact ih _ _ f hf

/-- The authentication frame is not a command result. -/
theorem authFrame_type (cfg : Config) : (authFrame cfg).lookup "type" = none := by
  simp [authFrame, List.lookup]

/-- C5: when the dials fail with the errors `errs` and the next one succeeds, the
trace of `Connect` is: per error one announced, failed, logged dial followed by a
5-second sleep; then the successful dial and one write of the frame
`{"token": Token, "server_id": ServerID}`; then, when that write succeeded, the
events of `listen` on the new transport and, once `listen` has returned, the next
turn of the loop (when it failed: the log line, the close and the next turn).  Up to
that write there are `errs.length + 1` dials, `errs.length` sleeps of 5 seconds and
no read; the authentication frame is the first frame written on the transport and no
frame written after it on that transport is an authentication frame. -/
theorem connect_reconnect {σ : Type} (env : Env σ) (cfg : Config) (u : String)
    (errs : List String) (reads : List ReadResult) (writeErr : Nat → Option String)
    (rest : List DialResult) (s : σ)
    (hu : env.ParseURL cfg.ServerURL = Except.ok u) :
    (writeErr 0 = none →
      Connect env cfg (errs.map DialResult.fail ++ DialResult.ok reads writeErr :: rest) s
        = failedAttempts u errs
          ++ [Event.log (LogEntry.connecting u), Event.dial u none,
              Event.log LogEntry.connected,
              Event.writeJSON [("token", cfg.Token), ("server_id", cfg.ServerID)] none]
          ++ (listen env writeErr reads 1 s).events
          ++ (if (listen env writeErr reads 1 s).returned
              then connectLoop env cfg u rest (listen env writeErr reads 1 s).host
              else [])) ∧
      (∀ e, writeErr 0 = some e →
        Connect env cfg (errs.map DialResult.fail ++ DialResult.ok reads writeErr :: rest) s
          = failedAttempts u errs
            ++ [Event.log (LogEntry.connecting u), Event.dial u none,
                Event.log LogEntry.connected,
                Event.writeJSON [("token", cfg.Token), ("server_id", cfg.ServerID)]
                  (some e),
                Event.log (LogEntry.authWriteFailed e), Event.close]
            ++ connectLoop env cfg u rest s) ∧
      dialCount (failedAttempts u errs
          ++ [Event.log (LogEntry.connecting u), Event.dial u none,
              Event.log LogEntry.connected,
              Event.writeJSON [("token", cfg.Token), ("server_id", cfg.ServerID)]
                (writeErr 0)]) = errs.length + 1 ∧
      sleeps (failedAttempts u errs
          ++ [Event.log (LogEntry.connecting u), Event.dial u none,
              Event.log LogEntry.connected,
              Event.writeJSON [("token", cfg.Token), ("server_id", cfg.ServerID)]
                (writeErr 0)]) = List.replicate errs.length 5 ∧
      readCount (failedAttempts u errs
          ++ [Event.log (LogEntry.connecting u), Event.dial u none,
              Event.log LogEntry.connected,
              Event.writeJSON [("token", cfg.Token), ("server_id", cfg.ServerID)]
                (writeErr 0)]) = 0 ∧
      writtenFrames (failedAttempts u errs
          ++ [Event.log (LogEntry.connecting u), Event.dial u none,
              Event.log LogEntry.connected,
              Event.writeJSON [("token", cfg.Token), ("server_id", cfg.ServerID)]
                (writeErr 0)]
          ++ (listen env writeErr reads 1 s).events)
        = [("token", cfg.Token), ("server_id", cfg.ServerID)]
            :: writtenFrames (listen env writeErr reads 1 s).events ∧
      [("token", cfg.Token), ("server_id", cfg.ServerID)]
        ∉ writtenFrames (listen env writeErr reads 1 s).events := by
  refine ⟨?_, ?_, ?_, ?_, ?_, ?_, ?_⟩
  · intro h0
    simp only [Connect, hu, connectLoop_failures, connectLoop, h0, authFrame]
    simp
  · intro e h0
    simp only [Connect, hu, connectLoop_failures, connectLoop, h0, authFrame]
    simp
  · rw [dialCount_append, dialCount_failedAttempts]; rfl
  · rw [sleeps_append, sleeps_failedAttempts]; simp [sleeps]
  · rw [readCount_append, readCount_failedAttempts]; rfl
  · rw [writtenFrames_append, writtenFrames_append, writtenFrames_failedAttempts]; rfl
  · intro hmem
    have h1 := listen_writes env writeErr reads 1 s _ hmem
    have h2 := authFrame_type cfg
    rw [authFrame] at h2
    rw [h2] at h1
    exact Option.noConfusion h1

/-- C6: when the write of the authentication frame fails, the loop of `Connect` logs
it and closes the transport, and what follows is the next turn of the loop, which
starts with the next dial: no sleep and no read in between. -/
theorem connect_auth_write_failure {σ : Type} (env : Env σ) (cfg : Config) (u : String)
    (reads : List ReadResult) (writeErr : Nat → Option String) (err : String)
    (next : DialResult) (rest : List DialResult) (s : σ)
    (hw : writeErr 0 = some err) :
    connectLoop env cfg u (DialResult.ok reads writeErr :: next :: rest) s
        = [Event.log (LogEntry.connecting u), Event.dial u none,
            Event.log LogEntry.connected,
            Event.writeJSON (authFrame cfg) (some err),
            Event.log (LogEntry.authWriteFailed err), Event.close]
          ++ connectLoop env cfg u (next :: rest) s ∧
      (∃ e tail, connectLoop env cfg u (next :: rest) s
        = Event.log (LogEntry.connecting u) :: Event.dial u e :: tail) := by
  refine ⟨by simp [connectLoop, hw], ?_⟩
  cases next with
  | fail e => exact ⟨some e, _, by simp [connectLoop]; rfl⟩
  | ok r w => exact ⟨none, _, by simp [connectLoop]; rfl⟩

/-! ## Concrete runs -/

/-- C1 on the frame `{"type":"command","content":"ls"}` with the sample executor,
which answers "ran ls". -/
theorem handleMessage_command_roundtrip_witness :
    sampleRun "ls" 0 = (⟨"ran ls", none⟩, 1) ∧
      (handleMessage sampleEnv writesOk
          [("type", Value.str "command"), ("content", Value.str "ls")] 1 0).events =
        [Event.log (LogEntry.receivedCommand "ls"), Event.runCommand "ls",
          Event.writeJSON [("type", "command_result"), ("content", "ran ls")] none] ∧
      writtenFrames (handleMessage sampleEnv writesOk
          [("type", Value.str "command"), ("content", Value.str "ls")] 1 0).events =
        [[("type", "command_result"), ("content", "ran ls")]] :=
  ⟨by decide,
    (handleMessage_command_roundtrip sampleEnv writesOk
      [("type", Value.str "command"), ("content", Value.str "ls")] 1 0 1 "ls" "ran ls"
      (by decide) (Or.inl (by decide)) (by decide)).1,
    (handleMessage_command_roundtrip sampleEnv writesOk
      [("type", Value.str "command"), ("content", Value.str "ls")] 1 0 1 "ls" "ran ls"
      (by decide) (Or.inl (by decide)) (by decide)).2.2.1⟩

/-- C2 on the frame `{"type":"command","content":"false"}` with the sample executor,
which fails with "exit status 1" after some output. -/
theorem handleMessage_command_failure_witness :
    sampleRun "false" 0 = (⟨"partial", some "exit status 1"⟩, 1) ∧
      writtenFrames (handleMessage sampleEnv writesOk
          [("type", Value.str "command"), ("content", Value.str "false")] 1 0).events =
        [[("type", "command_result"), ("content", "Error: " ++ "exit status 1")]] :=
  ⟨by decide,
    (handleMessage_command_failure sampleEnv writesOk
      [("type", Value.str "command"), ("content", Value.str "false")] 1 0 1
      "false" "partial" "exit status 1"
      (by decide) (Or.inl (by decide)) (by decide)).2.1⟩

/-- C4 on the reads `cmd-ls`, `garbage`, `cmd-pwd`, where `garbage` does not decode. -/
theorem listen_malformed_frame_witness :
    tableUnmarshal sampleTable "garbage" = Except.error "invalid character" ∧
      writtenFrames (listen sampleEnv writesOk
          ([ReadResult.message "cmd-ls"]
            ++ ReadResult.message "garbage" :: [ReadResult.message "cmd-pwd"]) 1 0).events
        = writtenFrames (listen sampleEnv writesOk
          ([ReadResult.message "cmd-ls"] ++ [ReadResult.message "cmd-pwd"]) 1 0).events :=
  ⟨rfl,
    (listen_malformed_frame sampleEnv writesOk "garbage" "invalid character"
      [ReadResult.message "cmd-ls"] [ReadResult.message "cmd-pwd"] 1 0 rfl).2.1⟩

/-- C5 with two failed dials before the successful one, on a transport that
delivers one command frame and then fails to read: the whole trace of `Connect`. -/
theorem connect_reconnect_witness :
    sampleEnv.ParseURL sampleConfig.ServerURL = Except.ok "ws://host/agent" ∧
      writesOk 0 = none ∧
      Connect sampleEnv sampleConfig
          (["refused", "timeout"].map DialResult.fail
            ++ DialResult.ok [ReadResult.message "cmd-ls", ReadResult.error "EOF"] writesOk
              :: []) 0
        = [Event.log (LogEntry.connecting "ws://host/agent"),
            Event.dial "ws://host/agent" (some "refused"),
            Event.log (LogEntry.connectionFailed "refused"), Event.sleep 5,
            Event.log (LogEntry.connecting "ws://host/agent"),
            Event.dial "ws://host/agent" (some "timeout"),
            Event.log (LogEntry.connectionFailed "timeout"), Event.sleep 5,
            Event.log (LogEntry.connecting "ws://host/agent"),
            Event.dial "ws://host/agent" none, Event.log LogEntry.connected,
            Event.writeJSON [("token", "secret"), ("server_id", "srv-1")] none,
            Event.readMessage, Event.log (LogEntry.receivedCommand "ls"),
            Event.runCommand "ls",
            Event.writeJSON [("type", "command_result"), ("content", "ran ls")] none,
            Event.readMessage, Event.log (LogEntry.readError "EOF"), Event.close,
            Event.log (LogEntry.connecting "ws://host/agent")] :=
  ⟨rfl, rfl,
    ((connect_reconnect sampleEnv sampleConfig "ws://host/agent" ["refused", "timeout"]
      [ReadResult.message "cmd-ls", ReadResult.error "EOF"] writesOk [] 0 rfl).1 rfl).trans
      (by decide)⟩

/-- C6 with a transport whose first write fails, followed by a dial that fails. -/
theorem connect_auth_write_failure_witness :
    writeFailsAt 0 0 = some "broken pipe" ∧
      connectLoop sampleEnv sampleConfig "ws://host/agent"
          [DialResult.ok [ReadResult.message "cmd-ls"] (writeFailsAt 0),
            DialResult.fail "refused"] 0
        = [Event.log (LogEntry.connecting "ws://host/agent"),
            Event.dial "ws://host/agent" none, Event.log LogEntry.connected,
            Event.writeJSON (authFrame sampleConfig) (some "broken pipe"),
            Event.log (LogEntry.authWriteFailed "broken pipe"), Event.close]
          ++ connectLoop sampleEnv sampleConfig "ws://host/agent"
              [DialResult.fail "refused"] 0 :=
  ⟨by decide,
    (connect_auth_write_failure sampleEnv sampleConfig "ws://host/agent"
      [ReadResult.message "cmd-ls"] (writeFailsAt 0) "broken pipe"
      (DialResult.fail "refused") [] 0 (by decide)).1⟩

/-- C7 on the reads `cmd-ls`, `status`, `cmd-pwd`. -/
theorem listen_single_flight_witness :
    actions (listen sampleEnv writesOk
        (["cmd-ls", "status", "cmd-pwd"].map ReadResult.message) 1 0).events
      = serial sampleEnv writesOk (commandsOf sampleEnv ["cmd-ls", "status", "cmd-pwd"]) 1 0 :=
  (listen_single_flight sampleEnv writesOk ["cmd-ls", "status", "cmd-pwd"] 1 0).2.2.2.2

/-- C8 on the frame `{"type":"ping_unexpected"}`. -/
theorem handleMessage_other_type_witness :
    "ping_unexpected" ≠ "command" ∧
      writtenFrames (handleMessage sampleEnv writesOk
          [("type", Value.str "ping_unexpected")] 1 0).events = [] ∧
      execCalls (handleMessage sampleEnv writesOk
          [("type", Value.str "ping_unexpected")] 1 0).events = [] :=
  ⟨by decide,
    (handleMessage_other_type sampleEnv writesOk [("type", Value.str "ping_unexpected")]
      1 0 "ping_unexpected" (by decide) (by decide)).2.1,
    (handleMessage_other_type sampleEnv writesOk [("type", Value.str "ping_unexpected")]
      1 0 "ping_unexpected" (by decide) (by decide)).2.2.1⟩

/-- C9, as amended, on the frame `{"type":7,"content":"ls"}`. -/
theorem handleMessage_no_type_witness :
    List.lookup "type" [("type", Value.other "7"), ("content", Value.str "ls")]
        = some (Value.other "7") ∧
      (handleMessage sampleEnv writesOk
          [("type", Value.other "7"), ("content", Value.str "ls")] 1 0).events = [] :=
  ⟨by decide,
    congrArg Step.events
      (handleMessage_no_type sampleEnv writesOk
        [("type", Value.other "7"), ("content", Value.str "ls")] 1 0
        (fun t h => by simp [List.lookup] at h))⟩

/-- C10 on the reads `cmd-ls`, a failure "EOF", `cmd-pwd`. -/
theorem listen_read_failure_witness :
    writesOk 0 = none ∧
      (listen sampleEnv writesOk
          (["cmd-ls"].map ReadResult.message
            ++ ReadResult.error "EOF" :: [ReadResult.message "cmd-pwd"]) 1 0).returned
        = true ∧
      execCalls (listen sampleEnv writesOk
          (["cmd-ls"].map ReadResult.message
            ++ ReadResult.error "EOF" :: [ReadResult.message "cmd-pwd"]) 1 0).events
        = ["ls"] ∧
      connectLoop sampleEnv sampleConfig "ws://host/agent"
          (DialResult.ok (["cmd-ls"].map ReadResult.message
            ++ ReadResult.error "EOF" :: [ReadResult.message "cmd-pwd"]) writesOk :: []) 0
        = ([Event.log (LogEntry.connecting "ws://host/agent"),
              Event.dial "ws://host/agent" none, Event.log LogEntry.connected,
              Event.writeJSON (authFrame sampleConfig) none]
            ++ (listen sampleEnv writesOk (["cmd-ls"].map ReadResult.message) 1 0).events
            ++ [Event.readMessage, Event.log (LogEntry.readError "EOF"), Event.close])
          ++ connectLoop sampleEnv sampleConfig "ws://host/agent" []
              (listen sampleEnv writesOk (["cmd-ls"].map ReadResult.message) 1 0).host :=
  ⟨rfl,
    congrArg Listened.returned
      (listen_read_failure sampleEnv writesOk sampleConfig "ws://host/agent" ["cmd-ls"]
        "EOF" [ReadResult.message "cmd-pwd"] [] 1 0).1,
    (congrArg (fun r => execCalls r.events)
      (listen_read_failure sampleEnv writesOk sampleConfig "ws://host/agent" ["cmd-ls"]
        "EOF" [ReadResult.message "cmd-pwd"] [] 1 0).1).trans (by decide),
    (listen_read_failure sampleEnv writesOk sampleConfig "ws://host/agent" ["cmd-ls"]
      "EOF" [ReadResult.message "cmd-pwd"] [] 1 0).2.1 rfl⟩

end Dogent
